import Mathlib

/-!
Verification development for the `fileserver` repository: an HTTP
file-sharing service with three handlers (upload, download, list), a
sandboxed storage directory, a YAML configuration loader and a router.

Shallow embedding conventions:
* File bodies and HTTP response bodies are `List Nat` (one entry per
  byte; string bodies are embedded through their character codes, which
  agrees with the byte view on the ASCII data the handlers emit).
* The storage directory is an association list from entry names to
  contents.  Names are the exact strings passed to the sandboxed
  create, matching the flat layout the service maintains.
* Failures of the environment (multipart parse, mkdir, opening the
  sandbox root, opening a part, creating a destination, the stream
  copy, removing a partial file) are Boolean oracles carried by the
  request/part records, since the Go code only branches on whether the
  corresponding call returned an error.
* Iteration over `r.MultipartForm.File` is a Go map range, whose order
  the Go specification leaves undefined; the embedding therefore takes
  the iteration sequence as an explicit parameter of the request.
-/

namespace FileServer

/-- Character-code view of a string, used for HTTP bodies. -/
def strBytes (s : String) : List Nat := s.data.map Char.toNat

/-- HTTP request methods.  `other` stands for every method besides GET
and POST. -/
inductive Method where
  | GET
  | POST
  | other (name : String)
deriving DecidableEq, Repr

/-- An HTTP response: status code, headers in the order they are set,
and the body. -/
structure Response where
  status : Nat
  headers : List (String × String)
  body : List Nat
deriving DecidableEq, Repr

/-- Model of Go `http.Error(w, msg, code)`: plain-text headers and the
message followed by a newline. -/
def httpError (msg : String) (code : Nat) : Response :=
  { status := code
    headers := [("Content-Type", "text/plain; charset=utf-8"),
                ("X-Content-Type-Options", "nosniff")]
    body := strBytes (msg ++ "\n") }

/-- The filesystem as the handlers see it: whether the storage
directory exists, the entries directly under the storage root, and the
files outside the root (which the handlers must never touch). -/
structure World where
  dirExists : Bool
  files : List (String × List Nat)
  outside : List (String × List Nat)
deriving DecidableEq, Repr

/-- Look a name up in a directory listing. -/
def lookupFile (n : String) : List (String × List Nat) → Option (List Nat)
  | [] => none
  | (m, c) :: fs => if m = n then some c else lookupFile n fs

/-- Create/truncate semantics of writing an entry: replace the entry in
place if present, otherwise append it. -/
def setFile (n : String) (c : List Nat) : List (String × List Nat) → List (String × List Nat)
  | [] => [(n, c)]
  | (m, d) :: fs => if m = n then (n, c) :: fs else (m, d) :: setFile n c fs

/-- Remove every entry with the given name (the real directory holds at
most one). -/
def eraseFile (n : String) : List (String × List Nat) → List (String × List Nat)
  | [] => []
  | (m, d) :: fs => if m = n then eraseFile n fs else (m, d) :: eraseFile n fs

/-- Split a character list at every slash character. -/
def splitSlash : List Char → List (List Char)
  | [] => [[]]
  | c :: cs =>
    match splitSlash cs with
    | [] => [[]]
    | r :: rs => if c = '/' then [] :: r :: rs else (c :: r) :: rs

/-- Walk the path components keeping the current depth below the root;
a dot-dot component at depth zero escapes. -/
def escAux : List (List Char) → Nat → Bool
  | [], _ => false
  | comp :: rest, depth =>
    if comp = ['.', '.'] then
      if depth = 0 then true else escAux rest (depth - 1)
    else if comp = [] ∨ comp = ['.'] then escAux rest depth
    else escAux rest (depth + 1)

/-- Model of the rejection test of `os.Root` (`root.Open`,
`root.Create`): the empty name, an absolute path, or a path whose
dot-dot components climb above the root all fail; everything else
resolves inside the root. -/
def pathEscapes (s : String) : Bool :=
  match s.data with
  | [] => true
  | c :: _ => if c = '/' then true else escAux (splitSlash s.data) 0

/-- Model of Go `filepath.Base`: empty means dot, trailing separators
are dropped, then the final component is kept; an all-separator path
gives the separator itself. -/
def baseName (s : String) : String :=
  if s.data = [] then "."
  else
    let t := s.data.reverse.dropWhile (fun c => c == '/')
    if t = [] then "/"
    else String.mk (t.takeWhile (fun c => c != '/')).reverse

/-- Drop an expected leading character sequence, or fail. -/
def dropPref : List Char → List Char → Option (List Char)
  | [], s => some s
  | _ :: _, [] => none
  | p :: ps, c :: cs => if c = p then dropPref ps cs else none

/-- Model of Go `strings.TrimPrefix`: remove the leading occurrence of
`pre`, returning `s` unchanged when `pre` does not lead. -/
def trimPref (pre s : String) : String :=
  match dropPref pre.data s.data with
  | some rest => String.mk rest
  | none => s

/-- Open an entry through the sandbox: escaping names are rejected,
otherwise the name is resolved against the storage listing. -/
def sandboxOpen (files : List (String × List Nat)) (name : String) : Option (List Nat) :=
  if pathEscapes name then none else lookupFile name files

/-- One file part of a multipart upload: the client-supplied filename
and content, plus the environment oracles for each fallible call the
handler makes on the part (`fh.Open`, `root.Create` beyond the sandbox
check, `io.CopyBuffer`, `os.Remove`), and the number of bytes the copy
managed to write before failing. -/
structure FilePart where
  filename : String
  content : List Nat
  openOk : Bool
  createOk : Bool
  copyOk : Bool
  removeOk : Bool
  written : Nat
deriving DecidableEq, Repr

/-- Observable filesystem/handle actions of the upload loop, recorded
so that resource-cleanup claims can be stated. -/
inductive Event where
  | attempt (field filename : String)
  | openedSrc (filename : String)
  | closedSrc (filename : String)
  | createdDst (filename : String)
  | closedDst (filename : String)
  | wroteDst (filename : String)
  | removedPartial (filename : String)
deriving DecidableEq, Repr

/-- Result of processing one file part: the updated storage listing,
the per-file error message if any, and the action trace. -/
structure StepRes where
  files : List (String × List Nat)
  err : Option String
  trace : List Event
deriving DecidableEq, Repr

/-- One iteration of the upload loop body, following the Go code step
by step.  The Go format strings bracket the file and field names with
quote characters; those quote characters are omitted from the embedded
messages. -/
def processPart (files : List (String × List Nat)) (field : String) (p : FilePart) : StepRes :=
  if !p.openOk then
    { files := files
      err := some ("error getting file " ++ p.filename ++ " from field " ++ field)
      trace := [.attempt field p.filename] }
  else if pathEscapes p.filename || !p.createOk then
    { files := files
      err := some ("error creating file " ++ p.filename)
      trace := [.attempt field p.filename, .openedSrc p.filename, .closedSrc p.filename] }
  else if !p.copyOk then
    let f1 := setFile p.filename (p.content.take p.written) files
    { files := if p.removeOk then eraseFile p.filename f1 else f1
      err := some ("error writing file " ++ p.filename)
      trace := [.attempt field p.filename, .openedSrc p.filename, .createdDst p.filename,
                .closedSrc p.filename, .closedDst p.filename] ++
               (if p.removeOk then [.removedPartial p.filename] else []) }
  else
    { files := setFile p.filename p.content files
      err := none
      trace := [.attempt field p.filename, .openedSrc p.filename, .createdDst p.filename,
                .wroteDst p.filename, .closedSrc p.filename, .closedDst p.filename] }

/-- Accumulated result of the upload loop. -/
structure LoopRes where
  files : List (String × List Nat)
  errs : List String
  trace : List Event
deriving DecidableEq, Repr

/-- The inner upload loop over the parts of one form field, in slice
order. -/
def runField (files : List (String × List Nat)) (field : String) : List FilePart → LoopRes
  | [] => { files := files, errs := [], trace := [] }
  | p :: ps =>
    let r := processPart files field p
    let rest := runField r.files field ps
    { files := rest.files
      errs := (match r.err with | some e => [e] | none => []) ++ rest.errs
      trace := r.trace ++ rest.trace }

/-- The outer upload loop over the form fields, in the order the map
range yields them. -/
def runParts (files : List (String × List Nat)) : List (String × List FilePart) → LoopRes
  | [] => { files := files, errs := [], trace := [] }
  | (f, ps) :: rest =>
    let r := runField files f ps
    let r2 := runParts r.files rest
    { files := r2.files, errs := r.errs ++ r2.errs, trace := r.trace ++ r2.trace }

/-- An upload request: the method, the environment oracles for
`ParseMultipartForm`, `os.MkdirAll` and `os.OpenRoot`, and the sequence
in which the map range yields the form fields. -/
structure UploadReq where
  method : Method
  parseOk : Bool
  mkdirOk : Bool
  openRootOk : Bool
  iter : List (String × List FilePart)
deriving DecidableEq, Repr

/-- Result of the upload handler: the response, the filesystem after
the request, and the action trace of the loop. -/
structure UploadRes where
  resp : Response
  world : World
  trace : List Event
deriving DecidableEq, Repr

/-- Model of `json.MarshalIndent(errs, BLANK, TAB)` on a list of
strings (the embedded messages contain no characters needing JSON
escaping). -/
def jsonItems : List String → String
  | [] => ""
  | [e] => "\t\"" ++ e ++ "\""
  | e :: es => "\t\"" ++ e ++ "\",\n" ++ jsonItems es

/-- JSON array rendering used for the multi-status body. -/
def jsonArr : List String → String
  | [] => "[]"
  | es => "[\n" ++ jsonItems es ++ "\n]"

/-- The upload handler, following the Go code: method check, multipart
parse, MkdirAll, OpenRoot, the per-part loop, then either a 207
multi-status with the JSON error list or a 200 success message. -/
def uploadHandler (req : UploadReq) (w : World) : UploadRes :=
  if req.method = Method.POST then
    if req.parseOk then
      if req.mkdirOk then
        let w1 : World := { w with dirExists := true }
        if req.openRootOk then
          let r := runParts w1.files req.iter
          let w2 : World := { w1 with files := r.files }
          if r.errs = [] then
            { resp := { status := 200
                        headers := [("Content-Type", "text/plain; charset=utf-8")]
                        body := strBytes "All files uploaded successfully\n" }
              world := w2, trace := r.trace }
          else
            { resp := httpError (jsonArr r.errs) 207, world := w2, trace := r.trace }
        else
          { resp := httpError "internal error" 500, world := w1, trace := [] }
      else
        { resp := httpError "internal error" 500, world := w, trace := [] }
    else
      { resp := httpError "internal error" 500, world := w, trace := [] }
  else
    { resp := httpError "method must be POST" 405, world := w, trace := [] }

/-- The download handler: method check, name extraction by trimming the
literal download prefix, empty-name check, OpenRoot, sandboxed open
(any failure is a uniform 404), stat, then headers and body.  The stat
of a successfully opened entry reports its stored length. -/
def downloadHandle (w : World) (m : Method) (path : String) : Response :=
  if m = Method.GET then
    if trimPref "/download/" path = "" then httpError "file name is not indicated" 400
    else if !w.dirExists then httpError "internal error" 500
    else
      match sandboxOpen w.files (trimPref "/download/" path) with
      | none => httpError "file is not found" 404
      | some content =>
        { status := 200
          headers := [("Content-Length", toString content.length),
                      ("Content-Type", "application/octet-stream"),
                      ("Content-Disposition",
                        "attachment; filename=" ++ baseName (trimPref "/download/" path))]
          body := content }
  else httpError "method must be GET" 405

/-- The body text the list handler builds with its string builder loop:
the header line, then one entry name per line. -/
def buildList (names : List String) : String :=
  names.foldl (fun acc n => acc ++ n ++ "\n") "Files currently available:\n"

/-- Lexicographic strict order on character lists by character code
(which for strings agrees with the byte order Go sorts by). -/
def chLt : List Char → List Char → Bool
  | [], [] => false
  | [], _ :: _ => true
  | _ :: _, [] => false
  | a :: as, b :: bs =>
    if a.toNat < b.toNat then true
    else if b.toNat < a.toNat then false
    else chLt as bs

/-- Insert a name into a sorted list. -/
def insertSorted (s : String) : List String → List String
  | [] => [s]
  | t :: ts => if chLt t.data s.data then t :: insertSorted s ts else s :: t :: ts

/-- Model of the ordering of `os.ReadDir`, which returns the directory
entries sorted by filename. -/
def sortNames : List String → List String
  | [] => []
  | s :: ss => insertSorted s (sortNames ss)

/-- The list handler: method check, ReadDir (failing when the storage
directory is missing), body construction, then headers and body. -/
def downloadList (w : World) (m : Method) : Response :=
  if m = Method.GET then
    if !w.dirExists then httpError "internal error" 500
    else
      let fileList := buildList (sortNames (w.files.map Prod.fst))
      { status := 200
        headers := [("Content-Length", toString (strBytes fileList).length),
                    ("Content-Type", "text/plain; charset=utf-8"),
                    ("Content-Disposition", "attachment; filename=list.txt")]
        body := strBytes fileList }
  else httpError "method must be GET" 405

/-- Nanoseconds in one second (Go `time.Duration` counts nanoseconds). -/
def nsPerSecond : Nat := 1000000000

/-- Server section of the configuration. -/
structure ServerConfig where
  addr : String
  readTimeout : Nat
  writeTimeout : Nat
  idleTimeout : Nat
deriving DecidableEq, Repr

/-- Uploader section of the configuration; the size limits are
megabyte values as in the YAML file. -/
structure UploaderConfig where
  storageDir : String
  maxUploadSizeMB : Int
  maxFormMemSizeMB : Int
deriving DecidableEq, Repr

/-- The whole configuration. -/
structure Config where
  server : ServerConfig
  uploader : UploaderConfig
deriving DecidableEq, Repr

/-- The defaults `NewConfig` starts from. -/
def defaultConfig : Config :=
  { server := { addr := ":8090"
                readTimeout := 5 * nsPerSecond
                writeTimeout := 10 * nsPerSecond
                idleTimeout := 30 * nsPerSecond }
    uploader := { storageDir := "storage"
                  maxUploadSizeMB := 3072
                  maxFormMemSizeMB := 32 } }

/-- Megabytes to bytes, as the left shift by twenty in the Go accessors
(overflow of the 64-bit shift never occurs for the values in range
here). -/
def mbToBytes (mb : Int) : Int := mb * 2 ^ 20

/-- Outcome of `os.ReadFile` on the configuration path. -/
inductive ReadResult where
  | notExist
  | otherError
  | ok (data : String)
deriving DecidableEq, Repr

/-- The two error classes `NewConfig` can surface. -/
inductive ConfigError where
  | readError
  | parseError
deriving DecidableEq, Repr

/-- Model of `NewConfig`: a missing file yields the defaults with no
error, any other read error is fatal, and on a readable file the YAML
unmarshal (an oracle mapping the document and the starting
configuration to the resulting one, or to nothing on a parse error)
runs over the defaults. -/
def newConfig (read : ReadResult) (unmarshal : String → Config → Option Config) :
    Except ConfigError Config :=
  match read with
  | .notExist => .ok defaultConfig
  | .otherError => .error .readError
  | .ok data =>
    match unmarshal data defaultConfig with
    | none => .error .parseError
    | some c => .ok c

/-- The four dispatch outcomes of the router. -/
inductive Route where
  | upload
  | download
  | list
  | notFound
deriving DecidableEq, Repr

/-- Whether a registered pattern matches a path: a pattern ending in a
slash matches every path it leads, any other pattern only matches
exactly. -/
def patMatches (pat path : String) : Bool :=
  if pat.data.getLast? = some '/' then pat.data.isPrefixOf path.data
  else pat = path

/-- The mux of `NewServer` with its three registered patterns.  The
serve mux picks the longest matching pattern, so the patterns are
tried in decreasing length. -/
def route (path : String) : Route :=
  if patMatches "/download/list.txt" path then Route.list
  else if patMatches "/download/" path then Route.download
  else if patMatches "/upload" path then Route.upload
  else Route.notFound

/-- Serving a GET request through the router: the list and download
handlers receive the request, a GET on the upload pattern is answered
by the upload handler's method check, and an unmatched path gets the
mux not-found response. -/
def serveGet (w : World) (path : String) : Response :=
  match route path with
  | .list => downloadList w Method.GET
  | .download => downloadHandle w Method.GET path
  | .upload => (uploadHandler { method := Method.GET, parseOk := true, mkdirOk := true,
                                openRootOk := true, iter := [] } w).resp
  | .notFound => httpError "404 page not found" 404

/-- Field-and-filename projections of the loop trace: the parts in the
order the loop visited them. -/
def attempts (tr : List Event) : List (String × String) :=
  tr.filterMap (fun e => match e with | .attempt f n => some (f, n) | _ => none)

/-- The parts of a form flattened in the order of the given field
sequence. -/
def flatNames : List (String × List FilePart) → List (String × String)
  | [] => []
  | (f, ps) :: rest => ps.map (fun p => (f, p.filename)) ++ flatNames rest

/-- One newline-terminated line per name. -/
def joinLines : List String → String
  | [] => ""
  | n :: ns => n ++ "\n" ++ joinLines ns

/-- Closed form of the list document: the header line followed by the
entry lines. -/
def listText (names : List String) : String :=
  "Files currently available:\n" ++ joinLines names

/-! ### Sample data for concrete evaluations -/

/-- A file part whose every environment call succeeds. -/
def partA : FilePart :=
  { filename := "a.txt", content := [104, 105], openOk := true, createOk := true,
    copyOk := true, removeOk := true, written := 0 }

/-- A second wholly successful file part. -/
def partB : FilePart :=
  { filename := "b.txt", content := [106], openOk := true, createOk := true,
    copyOk := true, removeOk := true, written := 0 }

/-- A file part whose stream copy fails after one byte. -/
def partBad : FilePart :=
  { filename := "bad.txt", content := [1, 2, 3], openOk := true, createOk := true,
    copyOk := false, removeOk := true, written := 1 }

/-- A fresh world: no storage directory yet, nothing stored, nothing
outside. -/
def world0 : World := { dirExists := false, files := [], outside := [] }

/-- A populated world with a file outside the storage root. -/
def worldS : World :=
  { dirExists := true
    files := [("a.txt", [104, 105]), ("b.txt", [106])]
    outside := [("/etc/passwd", [114, 111, 111, 116])] }

/-- A two-field form in insertion order. -/
def formAB : List (String × List FilePart) := [("a", [partA]), ("b", [partB])]

/-- The same form as the map range may yield it: fields in the
opposite order. -/
def iterBA : List (String × List FilePart) := [("b", [partB]), ("a", [partA])]

/-! ### Helper lemmas -/

theorem dropPref_append (p s : List Char) : dropPref p (p ++ s) = some s := by
  induction p with
  | nil => rfl
  | cons c cs ih => simp [dropPref, ih]

theorem trimPref_append (pre n : String) : trimPref pre (pre ++ n) = n := by
  unfold trimPref
  rw [String.data_append, dropPref_append]

theorem lookup_set (n : String) (c : List Nat) (fs : List (String × List Nat)) :
    lookupFile n (setFile n c fs) = some c := by
  induction fs with
  | nil => simp [setFile, lookupFile]
  | cons e fs ih =>
    obtain ⟨m, d⟩ := e
    by_cases h : m = n <;> simp [setFile, lookupFile, h, ih]

theorem lookup_erase (n : String) (fs : List (String × List Nat)) :
    lookupFile n (eraseFile n fs) = none := by
  induction fs with
  | nil => rfl
  | cons e fs ih =>
    obtain ⟨m, d⟩ := e
    by_cases h : m = n <;> simp [eraseFile, lookupFile, h, ih]

theorem pathEscapes_nil : pathEscapes "" = true := rfl

theorem attempts_append (a b : List Event) : attempts (a ++ b) = attempts a ++ attempts b := by
  simp [attempts, List.filterMap_append]

theorem attempts_processPart (fs : List (String × List Nat)) (field : String) (p : FilePart) :
    attempts (processPart fs field p).trace = [(field, p.filename)] := by
  simp only [processPart]
  split
  · simp [attempts, List.filterMap]
  · split
    · simp [attempts, List.filterMap]
    · split
      · cases hr : p.removeOk <;> simp [attempts, List.filterMap, hr]
      · simp [attempts, List.filterMap]

theorem attempts_runField (fs : List (String × List Nat)) (field : String)
    (ps : List FilePart) :
    attempts (runField fs field ps).trace = ps.map (fun p => (field, p.filename)) := by
  induction ps generalizing fs with
  | nil => rfl
  | cons p ps ih =>
    simp [runField, attempts_append, attempts_processPart, ih]

theorem attempts_runParts (fs : List (String × List Nat))
    (l : List (String × List FilePart)) :
    attempts (runParts fs l).trace = flatNames l := by
  induction l generalizing fs with
  | nil => rfl
  | cons e rest ih =>
    obtain ⟨f, ps⟩ := e
    simp [runParts, flatNames, attempts_append, attempts_runField, ih]

theorem buildList_go (names : List String) :
    ∀ acc : String, names.foldl (fun acc n => acc ++ n ++ "\n") acc = acc ++ joinLines names := by
  induction names with
  | nil => intro acc; simp [joinLines]
  | cons n ns ih =>
    intro acc
    rw [List.foldl_cons, ih]
    simp [joinLines, String.append_assoc]

theorem buildList_eq (names : List String) : buildList names = listText names := by
  simp [buildList, listText, buildList_go]

theorem filter_mapPart_ne (f g : String) (hne : g ≠ f) (qs : List FilePart) :
    (qs.map (fun p => (g, p.filename))).filter (fun e => e.1 == f) = [] := by
  have hb : (g == f) = false := beq_eq_false_iff_ne.mpr hne
  induction qs with
  | nil => rfl
  | cons q qs ih => simpa [List.filter, hb] using ih

theorem filter_mapPart_eq (f : String) (qs : List FilePart) :
    (qs.map (fun p => (f, p.filename))).filter (fun e => e.1 == f) =
      qs.map (fun p => (f, p.filename)) := by
  induction qs with
  | nil => rfl
  | cons q qs ih => simp [List.filter, ih]

theorem filter_flatNames_none (f : String) (l : List (String × List FilePart))
    (h : f ∉ l.map Prod.fst) :
    (flatNames l).filter (fun e => e.1 == f) = [] := by
  induction l with
  | nil => rfl
  | cons e rest ih =>
    obtain ⟨g, qs⟩ := e
    simp only [List.map_cons, List.mem_cons, not_or] at h
    have hg : g ≠ f := fun hgf => h.1 hgf.symm
    simp [flatNames, List.filter_append, filter_mapPart_ne f g hg qs, ih h.2]

theorem filter_flatNames (f : String) (ps : List FilePart)
    (l : List (String × List FilePart))
    (hnodup : (l.map Prod.fst).Nodup) (hmem : (f, ps) ∈ l) :
    (flatNames l).filter (fun e => e.1 == f) = ps.map (fun p => (f, p.filename)) := by
  induction l with
  | nil => cases hmem
  | cons e rest ih =>
    obtain ⟨g, qs⟩ := e
    simp only [List.map_cons, List.nodup_cons] at hnodup
    rcases List.mem_cons.mp hmem with heq | htail
    · injection heq with hf hp
      subst hf; subst hp
      have hrest : f ∉ rest.map Prod.fst := hnodup.1
      simp [flatNames, List.filter_append, filter_mapPart_eq,
            filter_flatNames_none f rest hrest]
    · have hf : f ∈ rest.map Prod.fst :=
        List.mem_map.mpr ⟨(f, ps), htail, rfl⟩
      have hg : g ≠ f := fun hgf => hnodup.1 (hgf ▸ hf)
      simp [flatNames, List.filter_append, filter_mapPart_ne f g hg qs, ih hnodup.2 htail]

/-! ### Claim theorems -/

/-- Claim C5: for every request to the upload handler whose method is
not POST, the response is 405 with message "method must be POST" and
the filesystem is completely untouched (no directory creation, no file
creation, no copy, empty action trace). -/
theorem upload_rejects_non_post (req : UploadReq) (w : World)
    (h : req.method ≠ Method.POST) :
    uploadHandler req w =
      { resp := httpError "method must be POST" 405, world := w, trace := [] } := by
  simp [uploadHandler, h]

/-- Witness for C5: a GET request to the upload handler is rejected
with 405 and leaves the fresh world unchanged. -/
theorem upload_rejects_non_post_witness :
    (({ method := Method.GET, parseOk := true, mkdirOk := true, openRootOk := true,
        iter := [] } : UploadReq).method ≠ Method.POST) ∧
    uploadHandler { method := Method.GET, parseOk := true, mkdirOk := true,
                    openRootOk := true, iter := [] } world0 =
      { resp := httpError "method must be POST" 405, world := world0, trace := [] } :=
  ⟨by decide, upload_rejects_non_post _ world0 (by decide)⟩

/-- Claim C6: for every GET request to the download handler whose
path, after trimming the literal download prefix, leaves an empty
name, the response is 400 "file name is not indicated", and the
response does not depend on the filesystem at all (no sandbox
accessor is opened and no file is read). -/
theorem download_empty_name_400 (w : World) (path : String)
    (h : trimPref "/download/" path = "") :
    downloadHandle w Method.GET path = httpError "file name is not indicated" 400 ∧
    ∀ w' : World, downloadHandle w' Method.GET path = downloadHandle w Method.GET path := by
  refine ⟨by simp [downloadHandle, h], fun w' => by simp [downloadHandle, h]⟩

/-- Witness for C6: a GET for the bare download prefix is answered 400
regardless of the stored files. -/
theorem download_empty_name_400_witness :
    trimPref "/download/" "/download/" = "" ∧
    (downloadHandle worldS Method.GET "/download/" =
        httpError "file name is not indicated" 400 ∧
      ∀ w' : World,
        downloadHandle w' Method.GET "/download/" =
          downloadHandle worldS Method.GET "/download/") :=
  ⟨by decide, download_empty_name_400 worldS "/download/" (by decide)⟩

/-- Claim C3: for every GET download request whose name the sandbox
fails to open, whether because the name resolves outside the storage
root or because the entry does not exist, the response is exactly 404
"file is not found", and the handler never reads any file outside the
storage root (its result is independent of everything outside the
root), so the two failure causes are indistinguishable from the
response. -/
theorem download_sandbox_failure_404 (w : World) (name : String)
    (hdir : w.dirExists = true) (hname : name ≠ "")
    (hopen : sandboxOpen w.files name = none) :
    downloadHandle w Method.GET ("/download/" ++ name) = httpError "file is not found" 404 ∧
    ∀ (o : List (String × List Nat)) (m : Method) (path : String),
      downloadHandle { w with outside := o } m path = downloadHandle w m path := by
  refine ⟨?_, fun o m path => rfl⟩
  simp [downloadHandle, trimPref_append, hname, hdir, hopen]

/-- Witness for C3: a traversal name is answered 404 even though the
target exists outside the root, and the response never depends on the
outside files. -/
theorem download_sandbox_failure_404_witness :
    worldS.dirExists = true ∧ ("../../etc/passwd" : String) ≠ "" ∧
    sandboxOpen worldS.files "../../etc/passwd" = none ∧
    (downloadHandle worldS Method.GET ("/download/" ++ "../../etc/passwd") =
        httpError "file is not found" 404 ∧
      ∀ (o : List (String × List Nat)) (m : Method) (path : String),
        downloadHandle { worldS with outside := o } m path = downloadHandle worldS m path) :=
  ⟨by decide, by decide, by decide,
   download_sandbox_failure_404 worldS "../../etc/passwd" (by decide) (by decide) (by decide)⟩

/-- Claim C7: every successful download response carries a
Content-Length equal to the stat-reported size of the opened entry, the
generic binary Content-Type, and a Content-Disposition whose filename
is exactly the base name of the requested name; the body is the stored
content. -/
theorem download_success_headers (w : World) (name : String) (content : List Nat)
    (hdir : w.dirExists = true) (hname : name ≠ "")
    (hopen : sandboxOpen w.files name = some content) :
    downloadHandle w Method.GET ("/download/" ++ name) =
      { status := 200
        headers := [("Content-Length", toString content.length),
                    ("Content-Type", "application/octet-stream"),
                    ("Content-Disposition", "attachment; filename=" ++ baseName name)]
        body := content } := by
  simp [downloadHandle, trimPref_append, hname, hdir, hopen]

/-- Witness for C7: downloading a stored two-byte file yields the 200
response with its exact headers and body. -/
theorem download_success_headers_witness :
    worldS.dirExists = true ∧ ("a.txt" : String) ≠ "" ∧
    sandboxOpen worldS.files "a.txt" = some [104, 105] ∧
    downloadHandle worldS Method.GET ("/download/" ++ "a.txt") =
      { status := 200
        headers := [("Content-Length", toString ([104, 105] : List Nat).length),
                    ("Content-Type", "application/octet-stream"),
                    ("Content-Disposition", "attachment; filename=" ++ baseName "a.txt")]
        body := [104, 105] } :=
  ⟨by decide, by decide, by decide,
   download_success_headers worldS "a.txt" [104, 105] (by decide) (by decide) (by decide)⟩

/-- Claim C1: for every single-file upload that completes with a 200
response, a subsequent GET download of that exact filename returns 200
with a body byte-identical to the uploaded content and a
Content-Length equal to the uploaded size. -/
theorem upload_download_roundtrip (w : World) (fld : String) (p : FilePart)
    (pr mk ro : Bool)
    (h : (uploadHandler ⟨Method.POST, pr, mk, ro, [(fld, [p])]⟩ w).resp.status = 200) :
    downloadHandle (uploadHandler ⟨Method.POST, pr, mk, ro, [(fld, [p])]⟩ w).world
        Method.GET ("/download/" ++ p.filename) =
      { status := 200
        headers := [("Content-Length", toString p.content.length),
                    ("Content-Type", "application/octet-stream"),
                    ("Content-Disposition", "attachment; filename=" ++ baseName p.filename)]
        body := p.content } := by
  cases pr with
  | false => simp [uploadHandler, httpError] at h
  | true =>
  cases mk with
  | false => simp [uploadHandler, httpError] at h
  | true =>
  cases ro with
  | false => simp [uploadHandler, httpError] at h
  | true =>
  cases hOpen : p.openOk with
  | false => simp [uploadHandler, runParts, runField, processPart, hOpen, httpError] at h
  | true =>
  cases hEsc : pathEscapes p.filename with
  | true => simp [uploadHandler, runParts, runField, processPart, hOpen, hEsc, httpError] at h
  | false =>
  cases hCreate : p.createOk with
  | false =>
    simp [uploadHandler, runParts, runField, processPart, hOpen, hEsc, hCreate, httpError] at h
  | true =>
  cases hCopy : p.copyOk with
  | false =>
    simp [uploadHandler, runParts, runField, processPart, hOpen, hEsc, hCreate, hCopy,
          httpError] at h
  | true =>
  have hne : p.filename ≠ "" := by
    intro he
    rw [he, pathEscapes_nil] at hEsc
    cases hEsc
  simp [uploadHandler, runParts, runField, processPart, hOpen, hEsc, hCreate, hCopy,
        downloadHandle, trimPref_append, hne, sandboxOpen, lookup_set]

/-- Witness for C1: uploading the two-byte file of `partA` into a
fresh world succeeds with 200, and downloading it returns exactly the
uploaded bytes. -/
theorem upload_download_roundtrip_witness :
    (uploadHandler ⟨Method.POST, true, true, true, [("f", [partA])]⟩ world0).resp.status = 200 ∧
    downloadHandle (uploadHandler ⟨Method.POST, true, true, true, [("f", [partA])]⟩ world0).world
        Method.GET ("/download/" ++ partA.filename) =
      { status := 200
        headers := [("Content-Length", toString partA.content.length),
                    ("Content-Type", "application/octet-stream"),
                    ("Content-Disposition", "attachment; filename=" ++ baseName partA.filename)]
        body := partA.content } :=
  ⟨by decide, upload_download_roundtrip world0 "f" partA true true true (by decide)⟩

/-- Counterexample to C2 as stated: the upload loop ranges over the Go
map holding the form fields, and a map range may yield the fields in
any order.  Here the range yields the two fields of `formAB` in the
reversed order `iterBA` (a permutation of the form, as Go guarantees),
and the processed sequence is not the insertion order of the form
fields. -/
theorem upload_order_counterexample :
    List.Perm iterBA formAB ∧
    attempts (runParts [] iterBA).trace ≠ flatNames formAB := by
  exact ⟨by decide, by decide⟩

/-- Claim C2 (amended): the upload handler processes the file parts
grouped by form field in the order the map range yields the fields,
which is unspecified; within each field the parts are processed in the
order they were submitted.  Formally: for any range order that is a
permutation of the form with its distinct field names, the processed
sequence restricted to one field is exactly that field's parts in
submission order. -/
theorem upload_within_field_order (fs : List (String × List Nat))
    (form iter : List (String × List FilePart)) (f : String) (ps : List FilePart)
    (hperm : List.Perm iter form) (hnodup : (form.map Prod.fst).Nodup)
    (hmem : (f, ps) ∈ form) :
    (attempts (runParts fs iter).trace).filter (fun e => e.1 == f) =
      ps.map (fun p => (f, p.filename)) := by
  rw [attempts_runParts]
  exact filter_flatNames f ps iter ((hperm.map Prod.fst).symm.nodup hnodup)
    (hperm.mem_iff.mpr hmem)

/-- Witness for the amended C2: with the fields ranged in reversed
order, the parts of field "a" still appear in submission order. -/
theorem upload_within_field_order_witness :
    List.Perm iterBA formAB ∧ (formAB.map Prod.fst).Nodup ∧ ("a", [partA]) ∈ formAB ∧
    (attempts (runParts [] iterBA).trace).filter (fun e => e.1 == "a") =
      [partA].map (fun p => ("a", p.filename)) :=
  ⟨by decide, by decide, by decide,
   upload_within_field_order [] formAB iterBA "a" [partA] (by decide) (by decide) (by decide)⟩

/-- Claim C4: for every file part whose stream copy fails mid-stream,
a per-file error is recorded, both the source and destination handles
are closed, the partially written destination entry is deleted when
the removal succeeds (best effort), and the loop still visits every
following part of the batch. -/
theorem upload_copy_failure_cleanup (fs : List (String × List Nat)) (field : String)
    (p : FilePart) (rest : List FilePart)
    (hOpen : p.openOk = true) (hEsc : pathEscapes p.filename = false)
    (hCreate : p.createOk = true) (hCopy : p.copyOk = false) :
    (processPart fs field p).err = some ("error writing file " ++ p.filename) ∧
    Event.closedSrc p.filename ∈ (processPart fs field p).trace ∧
    Event.closedDst p.filename ∈ (processPart fs field p).trace ∧
    (p.removeOk = true → lookupFile p.filename (processPart fs field p).files = none) ∧
    attempts (runField fs field (p :: rest)).trace =
      (field, p.filename) :: rest.map (fun q => (field, q.filename)) := by
  refine ⟨?_, ?_, ?_, fun hrem => ?_, ?_⟩
  · simp [processPart, hOpen, hEsc, hCreate, hCopy]
  · simp [processPart, hOpen, hEsc, hCreate, hCopy]
  · simp [processPart, hOpen, hEsc, hCreate, hCopy]
  · simp [processPart, hOpen, hEsc, hCreate, hCopy, hrem, lookup_erase]
  · simp [attempts_runField]

/-- Witness for C4: a part whose copy fails is recorded as an error,
both handles are closed, the partial entry is removed, and the
following part is still attempted. -/
theorem upload_copy_failure_cleanup_witness :
    partBad.openOk = true ∧ pathEscapes partBad.filename = false ∧
    partBad.createOk = true ∧ partBad.copyOk = false ∧
    ((processPart [] "f" partBad).err = some ("error writing file " ++ partBad.filename) ∧
      Event.closedSrc partBad.filename ∈ (processPart [] "f" partBad).trace ∧
      Event.closedDst partBad.filename ∈ (processPart [] "f" partBad).trace ∧
      (partBad.removeOk = true →
        lookupFile partBad.filename (processPart [] "f" partBad).files = none) ∧
      attempts (runField [] "f" (partBad :: [partA])).trace =
        ("f", partBad.filename) :: [partA].map (fun q => ("f", q.filename))) :=
  ⟨by decide, by decide, by decide, by decide,
   upload_copy_failure_cleanup [] "f" partBad [partA]
     (by decide) (by decide) (by decide) (by decide)⟩

/-- Claim C8: every successful list response is exactly the header
line followed by one directory-entry name per line in the order the
directory listing returns them, with a Content-Length equal to the
byte length of that body and an attachment disposition naming
list.txt. -/
theorem list_response_format (w : World) (hdir : w.dirExists = true) :
    downloadList w Method.GET =
      { status := 200
        headers := [("Content-Length",
                      toString (strBytes (listText (sortNames (w.files.map Prod.fst)))).length),
                    ("Content-Type", "text/plain; charset=utf-8"),
                    ("Content-Disposition", "attachment; filename=list.txt")]
        body := strBytes (listText (sortNames (w.files.map Prod.fst))) } := by
  simp [downloadList, hdir, buildList_eq]

/-- Witness for C8: listing the populated world produces the header
line and the two entry lines with matching Content-Length. -/
theorem list_response_format_witness :
    worldS.dirExists = true ∧
    downloadList worldS Method.GET =
      { status := 200
        headers := [("Content-Length",
                      toString (strBytes (listText (sortNames (worldS.files.map Prod.fst)))).length),
                    ("Content-Type", "text/plain; charset=utf-8"),
                    ("Content-Disposition", "attachment; filename=list.txt")]
        body := strBytes (listText (sortNames (worldS.files.map Prod.fst))) } :=
  ⟨by decide, list_response_format worldS (by decide)⟩

/-- Claim C9: loading the configuration from a missing file returns
the default configuration (address ":8090", timeouts of five, ten and
thirty seconds, storage directory "storage", limits of 3072 and 32
megabytes) with no error, and a readable file that fails to parse
yields a fatal error. -/
theorem config_missing_defaults_parse_fatal :
    (∀ u : String → Config → Option Config,
        newConfig ReadResult.notExist u = Except.ok defaultConfig) ∧
    defaultConfig =
      { server := { addr := ":8090", readTimeout := 5 * nsPerSecond,
                    writeTimeout := 10 * nsPerSecond, idleTimeout := 30 * nsPerSecond }
        uploader := { storageDir := "storage", maxUploadSizeMB := 3072,
                      maxFormMemSizeMB := 32 } } ∧
    (∀ (data : String) (u : String → Config → Option Config),
        u data defaultConfig = none →
        newConfig (ReadResult.ok data) u = Except.error ConfigError.parseError) := by
  refine ⟨fun u => rfl, rfl, fun data u h => ?_⟩
  simp [newConfig, h]

/-- Witness for C9: an unmarshal oracle that always fails makes
loading an existing document a parse error. -/
theorem config_parse_fatal_witness :
    ((fun (_ : String) (_ : Config) => (none : Option Config)) "x" defaultConfig = none) ∧
    newConfig (ReadResult.ok "x") (fun _ _ => none) = Except.error ConfigError.parseError :=
  ⟨rfl, config_missing_defaults_parse_fatal.2.2 "x" (fun _ _ => none) rfl⟩

/-- Claim C10: the router sends the path of the list document to the
list handler, never to the download handler, so that path always
yields the directory listing rather than the content of a stored file
of the same name. -/
theorem list_route_shadows_download :
    route "/download/list.txt" = Route.list ∧
    ∀ w : World, serveGet w "/download/list.txt" = downloadList w Method.GET := by
  have h : route "/download/list.txt" = Route.list := by decide
  refine ⟨h, fun w => ?_⟩
  unfold serveGet
  rw [h]

end FileServer
